import Mathlib

/-!
Shallow embedding of the analytic core of the repository
(`data_analysis/trends_analyzer/trends_analyzer/analyzer_modules.py`).

Modelling conventions:
* a pandas `Series` is a list of (index label, value) pairs; `NaN` is `none`;
  numeric values are rationals (the source works with Python floats, but every
  computation the claims mention is exact arithmetic on the inputs);
* the raw data loaded by `_load_data` is an arbitrary list of values with the
  canonical positional index `0, 1, ...` (the source drops `NaN` rows before
  storing, so every raw value is present);
* the `validate_args` decorator reads `kwargs` only, so the calling convention
  (positional / by name / omitted) is part of the model (`ArgPass`);
* `statsmodels.tsa.stattools.acf` is embedded by its definition
  `r_k = (sum of (x_t - mean)(x_(t-k) - mean)) / (sum of (x_t - mean)^2)`,
  which is the sample autocorrelation it computes (`adjusted=False`); a zero
  denominator gives `NaN` in floating point, hence `none` here;
* the embedding of `calculate_auto_correlation` covers the calls in which the
  requested lag count is at most the series length (true for the default and
  for every use in the repository); Python would slice with a negative bound
  otherwise;
* `pd.DataFrame` built from a dictionary of series aligns the rows on the
  union of the series indexes; `idxUnion` realizes that union (pandas sorts
  it, which coincides with the plain union whenever the later indexes are
  subsets of the first, as is the case in `get_results`).
-/

namespace TrendsAnalyzer

/-- A Python value passed to a decorated method: an `int`, or a value of any
other type (only `isinstance(-, int)` and positivity are ever inspected). -/
inductive PyVal where
  | vint : ℤ → PyVal
  | vother : PyVal
deriving DecidableEq

/-- How the `window_size` argument reaches `calculate_moving_average`:
positionally, by keyword, or not at all (defaulted). -/
inductive ArgPass where
  | positional : PyVal → ArgPass
  | byName : PyVal → ArgPass
  | omitted : ArgPass
deriving DecidableEq

/-- The test `isinstance(v, int) and v > 0` from `validate_args`
(the source uses `not isinstance(...) or v <= 0` for the failure case). -/
def isPosInt : PyVal → Bool
  | .vint n => decide (0 < n)
  | .vother => false

/-- The expression `kwargs.get("window_size", 7)` in the decorator: a
positional argument lands in `args`, not `kwargs`, so only a by-name
argument is seen; everything else yields the fallback `7`. -/
def kwargsGetWindowSize : ArgPass → PyVal
  | .byName v => v
  | _ => .vint 7

/-- The argument the wrapped `calculate_moving_average` actually receives:
the passed value, or the declared default `7` when omitted. -/
def effectiveWindowArg : ArgPass → PyVal
  | .positional v => v
  | .byName v => v
  | .omitted => .vint 7

/-- The `validate_args` decorator around `calculate_moving_average`
(lines 24-41 of `analyzer_modules.py`): check `kwargs.get("window_size", 7)`;
on failure raise (`InvalidArgument` in the terms of the spec, a `ValueError`
in the source), otherwise delegate the effective argument to the body. -/
def validate_args_moving_average (a : ArgPass) : Except String PyVal :=
  if isPosInt (kwargsGetWindowSize a) then .ok (effectiveWindowArg a)
  else .error "InvalidArgument"

/-- A pandas Series: ordered (index label, value) pairs, `NaN` as `none`. -/
structure PySeries where
  entries : List (ℕ × Option ℚ)
deriving DecidableEq

namespace PySeries

/-- Number of rows (`len(s)`). -/
def length (p : PySeries) : ℕ := p.entries.length

/-- The index labels (`s.index`). -/
def idx (p : PySeries) : List ℕ := p.entries.map Prod.fst

/-- The values column (`s.values`). -/
def vals (p : PySeries) : List (Option ℚ) := p.entries.map Prod.snd

/-- A series over the canonical positional index `0, 1, ...`. -/
def ofOptVals (s : List (Option ℚ)) : PySeries :=
  ⟨(List.range s.length).zip s⟩

/-- A series of present values over the canonical positional index,
as produced by `_load_data` (which drops `NaN` rows). -/
def ofValues (xs : List ℚ) : PySeries :=
  ofOptVals (xs.map some)

end PySeries

/-- Subtraction lifted to possibly-`NaN` values (`NaN` propagates). -/
def optSub : Option ℚ → Option ℚ → Option ℚ
  | some x, some y => some (x - y)
  | _, _ => none

/-- The comparison `a < b` of pandas: any comparison with `NaN` is `False`. -/
def optLt : Option ℚ → Option ℚ → Bool
  | some x, some y => decide (x < y)
  | _, _ => false

/-- The trailing window of `w` values ending at position `i`. -/
def trailingWindow (xs : List ℚ) (w i : ℕ) : List ℚ :=
  (xs.take (i + 1)).drop (i + 1 - w)

/-- The values of `s.rolling(window=w).mean()`: positions with fewer than `w`
rows of history are `NaN` (`min_periods` defaults to the window size), a `NaN`
inside the window makes the result `NaN`, otherwise the arithmetic mean of the
trailing `w` values. -/
def rollingMeanVals (s : List (Option ℚ)) (w : ℕ) : List (Option ℚ) :=
  (List.range s.length).map (fun i =>
    if i + 1 < w then none
    else
      let window := (s.take (i + 1)).drop (i + 1 - w)
      if window.all (fun x => x.isSome) then
        some ((window.filterMap id).sum / (w : ℚ))
      else none)

/-- The series `s.rolling(window=w).mean()`: index preserved. -/
def rollingMean (p : PySeries) (w : ℕ) : PySeries :=
  ⟨p.idx.zip (rollingMeanVals p.vals w)⟩

/-- The values of `s.diff()`: first position `NaN`, then the difference with
the previous value (`NaN` propagates). -/
def diffVals (s : List (Option ℚ)) : List (Option ℚ) :=
  (List.range s.length).map (fun i =>
    if i = 0 then none
    else optSub (s.getD i none) (s.getD (i - 1) none))

/-- The series `s.diff()`: index preserved. -/
def seriesDiff (p : PySeries) : PySeries :=
  ⟨p.idx.zip (diffVals p.vals)⟩

/-- The elementwise mask `(s.shift(1) < s) & (s.shift(-1) < s)` at position
`i` of the value list `s`: both immediate neighbours strictly below the
current value, comparisons against a missing neighbour (also the shifted-in
`NaN` at either end) being `False`. -/
def maximaMask (s : List (Option ℚ)) (i : ℕ) : Bool :=
  optLt (if i = 0 then none else s.getD (i - 1) none) (s.getD i none) &&
  optLt (s.getD (i + 1) none) (s.getD i none)

/-- The elementwise mask `(s.shift(1) > s) & (s.shift(-1) > s)` at position
`i`: both immediate neighbours strictly above the current value. -/
def minimaMask (s : List (Option ℚ)) (i : ℕ) : Bool :=
  optLt (s.getD i none) (if i = 0 then none else s.getD (i - 1) none) &&
  optLt (s.getD i none) (s.getD (i + 1) none)

/-- Boolean indexing `p[mask]`: keep, in order, the rows whose position
satisfies the mask. -/
def seriesSelect (p : PySeries) (mask : ℕ → Bool) : PySeries :=
  ⟨(List.range p.length).filterMap (fun i =>
      if mask i then p.entries.get? i else none)⟩

/-- The sample autocorrelation coefficient at lag `k` of `x`, as computed by
`statsmodels.tsa.stattools.acf`:
`r_k = (sum over t of (x_t - mean)(x_(t-k) - mean)) / (sum of (x_t - mean)^2)`;
a zero denominator (constant data) gives `NaN` in floating point. -/
def acfCoeff (x : List ℚ) (k : ℕ) : Option ℚ :=
  let mu := x.sum / (x.length : ℚ)
  let d := x.map (fun v => v - mu)
  let den := (d.map (fun v => v * v)).sum
  let num := (((d.drop k).zip d).map (fun p => p.1 * p.2)).sum
  if den = 0 then none else some (num / den)

/-- The array `acf(x, nlags=L)`: the coefficients for lags `0 .. L`. -/
def acfValues (x : List ℚ) (nlags : ℕ) : List (Option ℚ) :=
  (List.range (nlags + 1)).map (acfCoeff x)

/-- Length of the leading run of missing values of a value list. -/
def leadingNoneCount (s : List (Option ℚ)) : ℕ :=
  (s.takeWhile (fun x => x.isNone)).length

/-- The analyzer state: the keyword, the raw time series loaded once at
construction, and the smoothed series stored by the constructor
(`self.keyword`, `self.data`, `self.moving_avg_data`; the `pytrends` handle
and the `timeframe` string are I/O glue with no part in any computation). -/
structure TimeSeriesAnalyzer where
  keyword : String
  data : PySeries
  moving_avg_data : PySeries
deriving DecidableEq

/-- The body of `calculate_moving_average` (lines 100-113), after the
decorator: an empty series when the raw data is shorter than the window, else
the rolling mean of the raw data. -/
def calculate_moving_average (st : TimeSeriesAnalyzer) (window_size : ℕ) :
    PySeries :=
  if st.data.length < window_size then ⟨[]⟩
  else rollingMean st.data window_size

/-- The method `calculate_moving_average` as a state transformer: its body
contains no assignment to `self`, so the analyzer state is returned
untouched next to the computed series. -/
def run_calculate_moving_average (st : TimeSeriesAnalyzer)
    (window_size : ℕ) : TimeSeriesAnalyzer × PySeries :=
  (st, calculate_moving_average st window_size)

/-- The constructor (lines 72-86): store the keyword and the loaded data and
compute the stored smoothed series once, with the default window `7`. -/
def mkAnalyzer (keyword : String) (raw : List ℚ) : TimeSeriesAnalyzer :=
  { keyword := keyword
    data := PySeries.ofValues raw
    moving_avg_data := calculate_moving_average
      { keyword := keyword, data := PySeries.ofValues raw,
        moving_avg_data := ⟨[]⟩ } 7 }

/-- The method `calculate_differential` (lines 116-123):
`self.moving_avg_data.diff()` on the stored smoothed series. -/
def calculate_differential (st : TimeSeriesAnalyzer) : PySeries :=
  seriesDiff st.moving_avg_data

/-- The method `calculate_auto_correlation` (lines 125-159), which carries no
`validate_args` decorator in the source. All-missing stored data or fewer
than 2 valid values give an all-`NaN` series over the full index; otherwise
the acf of the valid subsequence is computed for lags `0 .. L` (`L` defaulting
to one less than the number of valid values), lag 0 is dropped, the remainder
is preceded by enough `NaN` rows to reach the full length, and the full
index is reassigned positionally. -/
def calculate_auto_correlation (st : TimeSeriesAnalyzer) (lags : Option ℕ) :
    PySeries :=
  let mad := st.moving_avg_data
  let n := mad.length
  if mad.vals.all (fun x => x.isNone) then
    ⟨mad.idx.zip (List.replicate n none)⟩
  else
    let valid := mad.vals.filterMap id
    let L := lags.getD (valid.length - 1)
    if valid.length < 2 then
      ⟨mad.idx.zip (List.replicate n none)⟩
    else
      let acfTail := (acfValues valid L).drop 1
      ⟨mad.idx.zip (List.replicate (n - acfTail.length) none ++ acfTail)⟩

/-- The method `find_maxima` (lines 162-172): boolean indexing of the stored
smoothed series by the strict-local-maximum mask. -/
def find_maxima (st : TimeSeriesAnalyzer) : PySeries :=
  seriesSelect st.moving_avg_data (maximaMask st.moving_avg_data.vals)

/-- The method `find_minima` (lines 175-185): boolean indexing of the stored
smoothed series by the strict-local-minimum mask. -/
def find_minima (st : TimeSeriesAnalyzer) : PySeries :=
  seriesSelect st.moving_avg_data (minimaMask st.moving_avg_data.vals)

/-- The index union pandas uses to align a DataFrame built from a dictionary
of series (written for the case where the extra indexes are subsets of the
accumulated one, as in `get_results`; pandas additionally sorts the union,
which is the identity in that case). -/
def idxUnion (a b : List ℕ) : List ℕ :=
  a ++ b.filter (fun x => !(a.contains x))

/-- The DataFrame assembled by `get_results`: the five result columns and the
row index they are aligned on. -/
structure ResultsTable where
  index : List ℕ
  moving_avg : PySeries
  differential : PySeries
  auto_correlation : PySeries
  maxima : PySeries
  minima : PySeries
deriving DecidableEq

/-- The method `get_results` (lines 201-223): recompute the moving average
with the default window, take the differential, autocorrelation and extrema,
and assemble the five columns into one DataFrame aligned on the union of
their indexes. -/
def get_results (st : TimeSeriesAnalyzer) : ResultsTable :=
  let ma := calculate_moving_average st 7
  let di := calculate_differential st
  let ac := calculate_auto_correlation st none
  let mx := find_maxima st
  let mn := find_minima st
  { index := idxUnion (idxUnion (idxUnion (idxUnion ma.idx di.idx) ac.idx)
      mx.idx) mn.idx
    moving_avg := ma
    differential := di
    auto_correlation := ac
    maxima := mx
    minima := mn }

/-- Concrete input of the spec scenarios: `[1,2,3,4,5,6,7,8,9,10]`. -/
def ratList10 : List ℚ := [1, 2, 3, 4, 5, 6, 7, 8, 9, 10]

/-- Concrete short input of the spec scenarios: 3 points against window 7. -/
def ratList3 : List ℚ := [1, 2, 3]

/-- Concrete input of length 8: its stored smoothed series has exactly two
valid values, the smallest count admitted by the autocorrelation. -/
def ratList8 : List ℚ := [1, 2, 3, 4, 5, 6, 7, 8]

/-- A stored smoothed value list with 6 leading missing entries and two
valid values, the shape `calculate_moving_average` produces on `ratList8`. -/
def smoothed8 : List (Option ℚ) :=
  [none, none, none, none, none, none, some 4, some 5]

/-- The smoothed value list `calculate_moving_average` produces on
`ratList10` with the default window. -/
def smoothed10 : List (Option ℚ) :=
  [none, none, none, none, none, none, some 4, some 5, some 6, some 7]

/-- An analyzer state over `ratList10` with its stored smoothed series
written out literally. -/
def analyzer10 : TimeSeriesAnalyzer :=
  { keyword := "k"
    data := PySeries.ofValues ratList10
    moving_avg_data := PySeries.ofOptVals smoothed10 }

/-- An analyzer state over `ratList8` with its stored smoothed series
written out literally. -/
def analyzer8 : TimeSeriesAnalyzer :=
  { keyword := "k"
    data := PySeries.ofValues ratList8
    moving_avg_data := PySeries.ofOptVals smoothed8 }

/-! Helper lemmas about the embedded pandas operations. -/

theorem PySeries.idx_length (p : PySeries) : p.idx.length = p.length := by
  simp [PySeries.idx, PySeries.length]

theorem PySeries.vals_length (p : PySeries) : p.vals.length = p.length := by
  simp [PySeries.vals, PySeries.length]

@[simp] theorem PySeries.ofOptVals_idx (s : List (Option ℚ)) :
    (PySeries.ofOptVals s).idx = List.range s.length := by
  simp [PySeries.ofOptVals, PySeries.idx]
  exact List.map_fst_zip _ _ (by simp)

@[simp] theorem PySeries.ofOptVals_vals (s : List (Option ℚ)) :
    (PySeries.ofOptVals s).vals = s := by
  simp [PySeries.ofOptVals, PySeries.vals]
  exact List.map_snd_zip _ _ (by simp)

@[simp] theorem PySeries.ofOptVals_length (s : List (Option ℚ)) :
    (PySeries.ofOptVals s).length = s.length := by
  simp [PySeries.ofOptVals, PySeries.length, List.length_zip]

@[simp] theorem PySeries.ofValues_idx (xs : List ℚ) :
    (PySeries.ofValues xs).idx = List.range xs.length := by
  simp [PySeries.ofValues]

@[simp] theorem PySeries.ofValues_vals (xs : List ℚ) :
    (PySeries.ofValues xs).vals = xs.map some := by
  simp [PySeries.ofValues]

@[simp] theorem PySeries.ofValues_length (xs : List ℚ) :
    (PySeries.ofValues xs).length = xs.length := by
  simp [PySeries.ofValues]

theorem PySeries.mkzip_idx (a : List ℕ) (b : List (Option ℚ))
    (h : a.length ≤ b.length) : (PySeries.mk (a.zip b)).idx = a :=
  List.map_fst_zip a b h

theorem PySeries.mkzip_vals (a : List ℕ) (b : List (Option ℚ))
    (h : b.length ≤ a.length) : (PySeries.mk (a.zip b)).vals = b :=
  List.map_snd_zip a b h

theorem getD_map_range {β : Type} [Inhabited β] (f : ℕ → β) (n i : ℕ)
    (h : i < n) (d : β) : ((List.range n).map f).getD i d = f i := by
  rw [List.getD_eq_getElem?_getD, List.getElem?_map, List.getElem?_range h]
  rfl

@[simp] theorem rollingMeanVals_length (s : List (Option ℚ)) (w : ℕ) :
    (rollingMeanVals s w).length = s.length := by
  simp [rollingMeanVals]

@[simp] theorem diffVals_length (s : List (Option ℚ)) :
    (diffVals s).length = s.length := by
  simp [diffVals]

theorem rollingMean_idx (p : PySeries) (w : ℕ) :
    (rollingMean p w).idx = p.idx := by
  apply PySeries.mkzip_idx
  rw [rollingMeanVals_length, PySeries.idx_length, PySeries.vals_length]

theorem rollingMean_vals (p : PySeries) (w : ℕ) :
    (rollingMean p w).vals = rollingMeanVals p.vals w := by
  apply PySeries.mkzip_vals
  rw [rollingMeanVals_length, PySeries.idx_length, PySeries.vals_length]

theorem seriesDiff_idx (p : PySeries) : (seriesDiff p).idx = p.idx := by
  apply PySeries.mkzip_idx
  rw [diffVals_length, PySeries.idx_length, PySeries.vals_length]

theorem seriesDiff_vals (p : PySeries) :
    (seriesDiff p).vals = diffVals p.vals := by
  apply PySeries.mkzip_vals
  rw [diffVals_length, PySeries.idx_length, PySeries.vals_length]

theorem optLt_eq_true_iff (a b : Option ℚ) :
    optLt a b = true ↔ ∃ x y : ℚ, a = some x ∧ b = some y ∧ x < y := by
  cases a <;> cases b <;> simp [optLt]

theorem filterMap_ite {α β : Type} (l : List α) (mask : α → Bool)
    (g : α → Option β) :
    (l.filterMap (fun i => if mask i then g i else none))
      = (l.filter mask).filterMap g := by
  induction l with
  | nil => simp
  | cons a t ih =>
    by_cases h : mask a = true <;>
      simp [List.filterMap_cons, List.filter_cons, h, ih]

theorem filterMap_mem_congr {α β : Type} (l : List α) (f g : α → Option β)
    (h : ∀ a ∈ l, f a = g a) : l.filterMap f = l.filterMap g := by
  induction l with
  | nil => simp
  | cons a t ih =>
    rw [List.filterMap_cons, List.filterMap_cons, h a (by simp),
      ih (fun a ha => h a (by simp [ha]))]

theorem ofOptVals_entries_get (s : List (Option ℚ)) (i : ℕ)
    (h : i < s.length) :
    (PySeries.ofOptVals s).entries.get? i = some (i, s.getD i none) := by
  rw [PySeries.ofOptVals]
  rw [List.get?_eq_getElem?]
  rw [show ((List.range s.length).zip s)[i]? = some (i, s.getD i none) from ?_]
  rw [List.getElem?_zip_eq_some]
  refine ⟨List.getElem?_range h, ?_⟩
  rw [List.getD_eq_getElem?_getD]
  cases hx : s[i]? with
  | none => exact absurd (List.getElem?_eq_none_iff.mp hx) (by omega)
  | some v => rfl

theorem seriesSelect_canonical (s : List (Option ℚ)) (mask : ℕ → Bool) :
    (seriesSelect (PySeries.ofOptVals s) mask).entries
      = ((List.range s.length).filter mask).map
          (fun i => (i, s.getD i none)) := by
  unfold seriesSelect
  rw [PySeries.ofOptVals_length]
  rw [filterMap_ite]
  rw [filterMap_mem_congr _ _
    (fun i => some (i, s.getD i none)) ?_]
  · exact congrFun (List.filterMap_eq_map _) _
  · intro a ha
    rw [List.mem_filter, List.mem_range] at ha
    exact ofOptVals_entries_get s a ha.1

theorem seriesSelect_canonical_idx (s : List (Option ℚ)) (mask : ℕ → Bool) :
    (seriesSelect (PySeries.ofOptVals s) mask).idx
      = (List.range s.length).filter mask := by
  rw [PySeries.idx, seriesSelect_canonical, List.map_map]
  exact List.map_id _

theorem length_filterMap_add_filter_none (s : List (Option ℚ)) :
    (s.filterMap id).length + (s.filter (fun x => x.isNone)).length
      = s.length := by
  induction s with
  | nil => simp
  | cons a t ih =>
    cases a <;> simp [List.filterMap_cons, List.filter_cons] <;> omega

theorem filterMap_id_map_some (xs : List ℚ) :
    (xs.map some).filterMap id = xs := by
  induction xs with
  | nil => simp
  | cons a t ih => simp [List.filterMap_cons, ih]

theorem all_isNone_false_of_valid (s : List (Option ℚ))
    (h : 1 ≤ (s.filterMap id).length) :
    s.all (fun x => x.isNone) = false := by
  induction s with
  | nil => simp at h
  | cons a t ih =>
    cases a with
    | none =>
      rw [List.filterMap_cons] at h
      simp only [List.all_cons, Option.isNone_none, Bool.true_and]
      exact ih h
    | some v => simp

@[simp] theorem acfValues_length (x : List ℚ) (L : ℕ) :
    (acfValues x L).length = L + 1 := by
  simp [acfValues]

theorem acfValues_drop_one (x : List ℚ) (L : ℕ) :
    (acfValues x L).drop 1
      = (List.range L).map (fun j => acfCoeff x (j + 1)) := by
  rw [acfValues, List.range_succ_eq_map]
  simp [List.map_map, Function.comp]

theorem map_some_all_isSome (t : List ℚ) :
    (t.map some).all (fun x => x.isSome) = true := by
  simp [List.all_eq_true]

theorem rollingMeanVals_map_some_getElem (xs : List ℚ) (w i : ℕ)
    (h : i < xs.length) :
    (rollingMeanVals (xs.map some) w)[i]?
      = some (if i + 1 < w then none
              else some ((trailingWindow xs w i).sum / (w : ℚ))) := by
  rw [rollingMeanVals, List.getElem?_map,
    List.getElem?_range (by simpa using h)]
  by_cases hc : i + 1 < w
  · simp [hc]
  · have hwin : ((xs.map some).take (i + 1)).drop (i + 1 - w)
        = (trailingWindow xs w i).map some := by
      rw [trailingWindow, List.map_drop, List.map_take]
    simp only [Option.map_some', hc, if_false, hwin, map_some_all_isSome,
      if_true, filterMap_id_map_some]

theorem rollingMeanVals_map_some_getD (xs : List ℚ) (w i : ℕ)
    (h : i < xs.length) :
    (rollingMeanVals (xs.map some) w).getD i none
      = if i + 1 < w then none
        else some ((trailingWindow xs w i).sum / (w : ℚ)) := by
  rw [List.getD_eq_getElem?_getD, rollingMeanVals_map_some_getElem xs w i h]
  rfl

theorem list_ext_getD {α : Type} (l₁ l₂ : List α) (d : α)
    (hlen : l₁.length = l₂.length)
    (h : ∀ i, i < l₁.length → l₁.getD i d = l₂.getD i d) : l₁ = l₂ := by
  apply List.ext_getElem?
  intro n
  by_cases hn : n < l₁.length
  · have e₁ : l₁[n]? = some l₁[n] := List.getElem?_eq_getElem hn
    have e₂ : l₂[n]? = some l₂[n] := List.getElem?_eq_getElem (by omega)
    rw [e₁, e₂]
    have := h n hn
    rw [List.getD_eq_getElem l₁ d hn, List.getD_eq_getElem l₂ d (by omega)]
      at this
    rw [this]
  · rw [List.getElem?_eq_none_iff.mpr (by omega),
      List.getElem?_eq_none_iff.mpr (by omega)]

theorem rollingMeanVals_ratList10 :
    rollingMeanVals (ratList10.map some) 7 = smoothed10 := by
  apply list_ext_getD _ _ none
  · decide
  · intro i hi
    rw [rollingMeanVals_length] at hi
    have hi10 : i < 10 := by simpa [ratList10] using hi
    rw [rollingMeanVals_map_some_getD _ _ _ (by simpa [ratList10] using hi10)]
    interval_cases i
    · decide
    · decide
    · decide
    · decide
    · decide
    · decide
    · rw [if_neg (by omega),
        show trailingWindow ratList10 7 6 = [1, 2, 3, 4, 5, 6, 7] from by
          decide,
        show smoothed10.getD 6 none = some 4 from by decide]
      norm_num [List.sum_cons]
    · rw [if_neg (by omega),
        show trailingWindow ratList10 7 7 = [2, 3, 4, 5, 6, 7, 8] from by
          decide,
        show smoothed10.getD 7 none = some 5 from by decide]
      norm_num [List.sum_cons]
    · rw [if_neg (by omega),
        show trailingWindow ratList10 7 8 = [3, 4, 5, 6, 7, 8, 9] from by
          decide,
        show smoothed10.getD 8 none = some 6 from by decide]
      norm_num [List.sum_cons]
    · rw [if_neg (by omega),
        show trailingWindow ratList10 7 9 = [4, 5, 6, 7, 8, 9, 10] from by
          decide,
        show smoothed10.getD 9 none = some 7 from by decide]
      norm_num [List.sum_cons]

theorem rollingMeanVals_ratList8 :
    rollingMeanVals (ratList8.map some) 7 = smoothed8 := by
  apply list_ext_getD _ _ none
  · decide
  · intro i hi
    rw [rollingMeanVals_length] at hi
    have hi8 : i < 8 := by simpa [ratList8] using hi
    rw [rollingMeanVals_map_some_getD _ _ _ (by simpa [ratList8] using hi8)]
    interval_cases i
    · decide
    · decide
    · decide
    · decide
    · decide
    · decide
    · rw [if_neg (by omega),
        show trailingWindow ratList8 7 6 = [1, 2, 3, 4, 5, 6, 7] from by
          decide,
        show smoothed8.getD 6 none = some 4 from by decide]
      norm_num [List.sum_cons]
    · rw [if_neg (by omega),
        show trailingWindow ratList8 7 7 = [2, 3, 4, 5, 6, 7, 8] from by
          decide,
        show smoothed8.getD 7 none = some 5 from by decide]
      norm_num [List.sum_cons]

theorem mkAnalyzer10_eq : mkAnalyzer "k" ratList10 = analyzer10 := by
  rw [mkAnalyzer, analyzer10]
  congr 1
  rw [calculate_moving_average, if_neg (by decide), rollingMean,
    show (PySeries.ofValues ratList10).idx = List.range 10 from by decide,
    show (PySeries.ofValues ratList10).vals = ratList10.map some from by
      decide,
    rollingMeanVals_ratList10]
  rfl

theorem rollingMean_length (p : PySeries) (w : ℕ) :
    (rollingMean p w).length = p.length := by
  rw [rollingMean, PySeries.length, List.length_zip, rollingMeanVals_length,
    PySeries.idx_length, PySeries.vals_length]
  omega

theorem calculate_moving_average_idx (st : TimeSeriesAnalyzer) (w : ℕ)
    (h : w ≤ st.data.length) :
    (calculate_moving_average st w).idx = st.data.idx := by
  rw [calculate_moving_average, if_neg (by omega)]
  exact rollingMean_idx _ _

theorem calculate_moving_average_length (st : TimeSeriesAnalyzer) (w : ℕ)
    (h : w ≤ st.data.length) :
    (calculate_moving_average st w).length = st.data.length := by
  rw [calculate_moving_average, if_neg (by omega)]
  exact rollingMean_length _ _

theorem calculate_moving_average_vals (st : TimeSeriesAnalyzer) (w : ℕ)
    (h : w ≤ st.data.length) :
    (calculate_moving_average st w).vals
      = rollingMeanVals st.data.vals w := by
  rw [calculate_moving_average, if_neg (by omega)]
  exact rollingMean_vals _ _

theorem auto_correlation_idx (st : TimeSeriesAnalyzer) (lags : Option ℕ) :
    (calculate_auto_correlation st lags).idx = st.moving_avg_data.idx := by
  simp only [calculate_auto_correlation]
  split
  · exact PySeries.mkzip_idx _ _
      (by rw [List.length_replicate, PySeries.idx_length])
  · split
    · exact PySeries.mkzip_idx _ _
        (by rw [List.length_replicate, PySeries.idx_length])
    · apply PySeries.mkzip_idx
      rw [List.length_append, List.length_replicate, PySeries.idx_length]
      omega

theorem seriesSelect_idx_subset (p : PySeries) (mask : ℕ → Bool) (i : ℕ)
    (hi : i ∈ (seriesSelect p mask).idx) : i ∈ p.idx := by
  rw [seriesSelect, PySeries.idx] at hi
  obtain ⟨pair, hpair, rfl⟩ := List.mem_map.mp hi
  obtain ⟨j, hj, hsome⟩ := List.mem_filterMap.mp hpair
  by_cases hm : mask j = true
  · rw [if_pos hm] at hsome
    exact List.mem_map_of_mem Prod.fst (List.get?_mem hsome)
  · rw [if_neg hm] at hsome
    cases hsome

theorem idxUnion_eq_left (a b : List ℕ) (h : ∀ x ∈ b, x ∈ a) :
    idxUnion a b = a := by
  rw [idxUnion, List.filter_eq_nil_iff.mpr ?_, List.append_nil]
  intro x hx
  have hc : a.contains x = true := List.elem_iff.mpr (h x hx)
  simp only [hc, Bool.not_true]
  exact Bool.false_ne_true

theorem mkAnalyzer_data (k : String) (raw : List ℚ) :
    (mkAnalyzer k raw).data = PySeries.ofValues raw := rfl

theorem mkAnalyzer_stored (k : String) (raw : List ℚ) (h : 7 ≤ raw.length) :
    (mkAnalyzer k raw).moving_avg_data
      = rollingMean (PySeries.ofValues raw) 7 := by
  have hinit : (mkAnalyzer k raw).moving_avg_data
      = calculate_moving_average
          { keyword := k, data := PySeries.ofValues raw,
            moving_avg_data := PySeries.mk [] } 7 := rfl
  rw [hinit, calculate_moving_average, if_neg ?_]
  show ¬ (PySeries.ofValues raw).length < 7
  rw [PySeries.ofValues_length]
  omega

theorem mkAnalyzer_stored_idx (k : String) (raw : List ℚ)
    (h : 7 ≤ raw.length) :
    (mkAnalyzer k raw).moving_avg_data.idx = List.range raw.length := by
  rw [mkAnalyzer_stored k raw h, rollingMean_idx, PySeries.ofValues_idx]

theorem lt_length_of_getD_some (s : List (Option ℚ)) (j : ℕ) (x : ℚ)
    (h : s.getD j none = some x) : j < s.length := by
  by_contra hc
  rw [List.getD_eq_default _ _ (by omega)] at h
  cases h

theorem getD_mem_of_lt (s : List (Option ℚ)) (j : ℕ) (h : j < s.length) :
    s.getD j none ∈ s := by
  rw [List.getD_eq_getElem s none h]
  exact List.getElem_mem h

theorem maximaMask_true_iff (s : List (Option ℚ)) (i : ℕ) :
    maximaMask s i = true
      ↔ 0 < i ∧ ∃ a b c : ℚ, s.getD (i - 1) none = some a
          ∧ s.getD i none = some b ∧ s.getD (i + 1) none = some c
          ∧ a < b ∧ c < b := by
  rw [maximaMask, Bool.and_eq_true, optLt_eq_true_iff, optLt_eq_true_iff]
  constructor
  · rintro ⟨⟨a, b, ha, hb, hab⟩, ⟨c, b2, hc, hb2, hcb⟩⟩
    by_cases h0 : i = 0
    · rw [if_pos h0] at ha
      cases ha
    · rw [if_neg h0] at ha
      have hbb : b2 = b := by
        rw [hb] at hb2
        exact (Option.some.injEq _ _ ▸ hb2).symm
      refine ⟨by omega, a, b, c, ha, hb, hc, hab, ?_⟩
      rw [hbb] at hcb
      exact hcb
  · rintro ⟨h0, a, b, c, ha, hb, hc, hab, hcb⟩
    refine ⟨⟨a, b, ?_, hb, hab⟩, ⟨c, b, hc, hb, hcb⟩⟩
    rw [if_neg (by omega)]
    exact ha

theorem minimaMask_true_iff (s : List (Option ℚ)) (i : ℕ) :
    minimaMask s i = true
      ↔ 0 < i ∧ ∃ a b c : ℚ, s.getD (i - 1) none = some a
          ∧ s.getD i none = some b ∧ s.getD (i + 1) none = some c
          ∧ b < a ∧ b < c := by
  rw [minimaMask, Bool.and_eq_true, optLt_eq_true_iff, optLt_eq_true_iff]
  constructor
  · rintro ⟨⟨b, a, hb, ha, hba⟩, ⟨b2, c, hb2, hc, hbc⟩⟩
    by_cases h0 : i = 0
    · rw [if_pos h0] at ha
      cases ha
    · rw [if_neg h0] at ha
      have hbb : b2 = b := by
        rw [hb] at hb2
        exact (Option.some.injEq _ _ ▸ hb2).symm
      refine ⟨by omega, a, b, c, ha, hb, hc, hba, ?_⟩
      rw [hbb] at hbc
      exact hbc
  · rintro ⟨h0, a, b, c, ha, hb, hc, hba, hbc⟩
    refine ⟨⟨b, a, hb, ?_, hba⟩, ⟨b, c, hb, hc, hbc⟩⟩
    rw [if_neg (by omega)]
    exact ha

theorem mkAnalyzer8_eq : mkAnalyzer "k" ratList8 = analyzer8 := by
  rw [mkAnalyzer, analyzer8]
  congr 1
  rw [calculate_moving_average, if_neg (by decide), rollingMean,
    show (PySeries.ofValues ratList8).idx = List.range 8 from by decide,
    show (PySeries.ofValues ratList8).vals = ratList8.map some from by
      decide,
    rollingMeanVals_ratList8]
  rfl

theorem find_maxima_canonical_entries (s : List (Option ℚ)) (k : String)
    (d : PySeries) :
    (find_maxima ⟨k, d, PySeries.ofOptVals s⟩).entries
      = ((List.range s.length).filter (maximaMask s)).map
          (fun i => (i, s.getD i none)) := by
  have h1 : find_maxima ⟨k, d, PySeries.ofOptVals s⟩
      = seriesSelect (PySeries.ofOptVals s)
          (maximaMask (PySeries.ofOptVals s).vals) := rfl
  rw [h1, PySeries.ofOptVals_vals]
  exact seriesSelect_canonical s _

theorem find_minima_canonical_entries (s : List (Option ℚ)) (k : String)
    (d : PySeries) :
    (find_minima ⟨k, d, PySeries.ofOptVals s⟩).entries
      = ((List.range s.length).filter (minimaMask s)).map
          (fun i => (i, s.getD i none)) := by
  have h1 : find_minima ⟨k, d, PySeries.ofOptVals s⟩
      = seriesSelect (PySeries.ofOptVals s)
          (minimaMask (PySeries.ofOptVals s).vals) := rfl
  rw [h1, PySeries.ofOptVals_vals]
  exact seriesSelect_canonical s _

theorem find_maxima_canonical_idx (s : List (Option ℚ)) (k : String)
    (d : PySeries) :
    (find_maxima ⟨k, d, PySeries.ofOptVals s⟩).idx
      = (List.range s.length).filter (maximaMask s) := by
  have h1 : find_maxima ⟨k, d, PySeries.ofOptVals s⟩
      = seriesSelect (PySeries.ofOptVals s)
          (maximaMask (PySeries.ofOptVals s).vals) := rfl
  rw [h1, PySeries.ofOptVals_vals]
  exact seriesSelect_canonical_idx s _

theorem find_minima_canonical_idx (s : List (Option ℚ)) (k : String)
    (d : PySeries) :
    (find_minima ⟨k, d, PySeries.ofOptVals s⟩).idx
      = (List.range s.length).filter (minimaMask s) := by
  have h1 : find_minima ⟨k, d, PySeries.ofOptVals s⟩
      = seriesSelect (PySeries.ofOptVals s)
          (minimaMask (PySeries.ofOptVals s).vals) := rfl
  rw [h1, PySeries.ofOptVals_vals]
  exact seriesSelect_canonical_idx s _

/-! Claim theorems. -/

/-- C1, counterexample: the claim says a non-positive `window_size` raises
`InvalidArgument` before any computation regardless of how the argument is
passed. Passing `window_size = 0` positionally refutes it: the decorator
reads only `kwargs`, validates the fallback `7` instead, and delegates the
non-positive `0` to the computation without raising. -/
theorem C1_positional_bypass :
    validate_args_moving_average (ArgPass.positional (PyVal.vint 0))
        = Except.ok (PyVal.vint 0)
      ∧ validate_args_moving_average (ArgPass.positional (PyVal.vint 0))
        ≠ Except.error "InvalidArgument" := by
  refine ⟨rfl, fun hcontra => ?_⟩
  have h1 : validate_args_moving_average (ArgPass.positional (PyVal.vint 0))
      = Except.ok (PyVal.vint 0) := rfl
  rw [h1] at hcontra
  exact Except.noConfusion hcontra

/-- C1, amended: when `window_size` is passed by name and is not a positive
integer, `InvalidArgument` is raised before the computation runs; when it is
omitted the validated default `7` passes and is delegated; a positionally
passed `window_size` is never validated and is delegated as given. -/
theorem C1_validation_by_name_only :
    (∀ v : PyVal, isPosInt v = false →
        validate_args_moving_average (ArgPass.byName v)
          = Except.error "InvalidArgument")
      ∧ validate_args_moving_average ArgPass.omitted
          = Except.ok (PyVal.vint 7)
      ∧ (∀ v : PyVal,
          validate_args_moving_average (ArgPass.positional v)
            = Except.ok v) := by
  refine ⟨?_, rfl, fun v => rfl⟩
  intro v hv
  rw [validate_args_moving_average]
  rw [if_neg ?_]
  show ¬ isPosInt (kwargsGetWindowSize (ArgPass.byName v)) = true
  rw [kwargsGetWindowSize, hv]
  exact Bool.false_ne_true

/-- C1, witness: the amended validation theorem applied to the concrete
by-name argument `window_size = 0`. -/
theorem C1_validation_witness :
    validate_args_moving_average (ArgPass.byName (PyVal.vint 0))
      = Except.error "InvalidArgument" :=
  C1_validation_by_name_only.1 (PyVal.vint 0) (by decide)

/-- C2: the claim says an explicit non-positive `lags` raises
`InvalidArgument` before any computation. In the source
`calculate_auto_correlation` carries no `validate_args` decorator (although
the documentation of the decorator names it), so the call with the explicit
non-positive `lags = 0` on an analyzer built from `[1,...,8]` runs the
computation to completion and returns an all-missing series of full length
instead of raising. -/
theorem C2_no_lags_validation :
    (calculate_auto_correlation (mkAnalyzer "k" ratList8) (some 0)).vals
        = List.replicate 8 none
      ∧ (calculate_auto_correlation (mkAnalyzer "k" ratList8)
          (some 0)).length = 8 := by
  rw [mkAnalyzer8_eq]
  decide

/-- C5, counterexample: the claim says the output length equals the input
length for every positive `window_size`, but an input of 3 points with
window 7 yields the empty series (length 0, not 3). -/
theorem C5_short_input_length :
    (calculate_moving_average (mkAnalyzer "k" ratList3) 7).length = 0
      ∧ ratList3.length = 3 := by
  decide

/-- C5, amended: whenever the input is at least as long as the positive
window, the output length equals the input length, the first
`window_size - 1` entries are missing, every later entry `i` is the
arithmetic mean of the trailing window of `window_size` values ending at
`i`; and on the concrete input `[1,...,10]` with window 7 the first 6
entries are missing, entry 6 is 4 and entry 9 is 7. -/
theorem C5_moving_average_values :
    (∀ (st : TimeSeriesAnalyzer) (xs : List ℚ) (w : ℕ),
        st.data = PySeries.ofValues xs → 1 ≤ w → w ≤ xs.length →
        (calculate_moving_average st w).length = xs.length
          ∧ (∀ i, i < xs.length →
              (calculate_moving_average st w).vals.getD i none
                = if i + 1 < w then none
                  else some ((trailingWindow xs w i).sum / (w : ℚ)))
          ∧ (∀ i, w - 1 ≤ i → i < xs.length →
              (trailingWindow xs w i).length = w))
      ∧ (calculate_moving_average (mkAnalyzer "k" ratList10) 7).vals
          = [none, none, none, none, none, none, some 4, some 5, some 6,
             some 7] := by
  constructor
  · intro st xs w hdata hw hlen
    have hlen2 : w ≤ st.data.length := by
      rw [hdata, PySeries.ofValues_length]
      exact hlen
    refine ⟨?_, ?_, ?_⟩
    · rw [calculate_moving_average_length st w hlen2, hdata,
        PySeries.ofValues_length]
    · intro i hi
      rw [calculate_moving_average_vals st w hlen2, hdata,
        PySeries.ofValues_vals]
      exact rollingMeanVals_map_some_getD xs w i hi
    · intro i h1 h2
      rw [trailingWindow, List.length_drop, List.length_take]
      omega
  · rw [calculate_moving_average_vals _ _ ?_, mkAnalyzer_data,
      PySeries.ofValues_vals, rollingMeanVals_ratList10]
    · rfl
    · rw [mkAnalyzer_data, PySeries.ofValues_length]
      decide

/-- C5, witness: the amended theorem applied to the analyzer over
`[1,...,10]` with window 7. -/
theorem C5_moving_average_witness :
    (calculate_moving_average (mkAnalyzer "k" ratList10) 7).length
      = ratList10.length :=
  (C5_moving_average_values.1 (mkAnalyzer "k" ratList10) ratList10 7 rfl
    (by decide) (by decide)).1

/-- C6: for every input series strictly shorter than the requested positive
window, the guarded call raises nothing (the by-name validation passes) and
the computation returns the empty series. -/
theorem C6_short_input_empty :
    ∀ (st : TimeSeriesAnalyzer) (w : ℕ), 1 ≤ w → st.data.length < w →
      validate_args_moving_average (ArgPass.byName (PyVal.vint (w : ℤ)))
          = Except.ok (PyVal.vint (w : ℤ))
        ∧ calculate_moving_average st w = PySeries.mk []
        ∧ (calculate_moving_average st w).length = 0 := by
  intro st w hw hlen
  have hpos : (0 : ℤ) < (w : ℤ) := by exact_mod_cast hw
  refine ⟨?_, ?_, ?_⟩
  · rw [validate_args_moving_average, if_pos ?_]
    · rfl
    · show isPosInt (kwargsGetWindowSize (ArgPass.byName (PyVal.vint w)))
        = true
      rw [kwargsGetWindowSize, isPosInt]
      exact decide_eq_true hpos
  · rw [calculate_moving_average, if_pos hlen]
  · rw [calculate_moving_average, if_pos hlen]
    rfl

/-- C6, witness: the theorem applied to the analyzer over the 3-point input
with window 7. -/
theorem C6_short_input_witness :
    validate_args_moving_average
        (ArgPass.byName (PyVal.vint ((7 : ℕ) : ℤ)))
        = Except.ok (PyVal.vint ((7 : ℕ) : ℤ))
      ∧ calculate_moving_average (mkAnalyzer "k" ratList3) 7
          = PySeries.mk []
      ∧ (calculate_moving_average (mkAnalyzer "k" ratList3) 7).length
          = 0 :=
  C6_short_input_empty (mkAnalyzer "k" ratList3) 7 (by decide) (by decide)

/-- C8: the differential is taken of the stored smoothed series of the analyzer,
keeps its index, has a missing entry at position 0, and at every later
position equals the stored smoothed value minus its predecessor (missing
operands propagate, as for the floating-point `NaN`). -/
theorem C8_differential_values :
    ∀ st : TimeSeriesAnalyzer,
      calculate_differential st = seriesDiff st.moving_avg_data
        ∧ (calculate_differential st).idx = st.moving_avg_data.idx
        ∧ (calculate_differential st).vals.getD 0 none = none
        ∧ ∀ i, 1 ≤ i → i < st.moving_avg_data.length →
            (calculate_differential st).vals.getD i none
              = optSub (st.moving_avg_data.vals.getD i none)
                  (st.moving_avg_data.vals.getD (i - 1) none) := by
  intro st
  refine ⟨rfl, seriesDiff_idx _, ?_, ?_⟩
  · rw [calculate_differential, seriesDiff_vals]
    rcases Nat.eq_zero_or_pos st.moving_avg_data.vals.length with h | h
    · exact List.getD_eq_default _ _ (by rw [diffVals_length]; omega)
    · rw [diffVals, getD_map_range _ _ _ h]
      simp
  · intro i h1 h2
    have hv : i < st.moving_avg_data.vals.length := by
      rw [PySeries.vals_length]
      exact h2
    rw [calculate_differential, seriesDiff_vals, diffVals,
      getD_map_range _ _ _ hv, if_neg (by omega)]

/-- C8, witness: the differential theorem applied to the analyzer over
`[1,...,10]` at position 7. -/
theorem C8_differential_witness :
    (calculate_differential (mkAnalyzer "k" ratList10)).vals.getD 7 none
      = optSub
          ((mkAnalyzer "k" ratList10).moving_avg_data.vals.getD 7 none)
          ((mkAnalyzer "k" ratList10).moving_avg_data.vals.getD 6 none) :=
  (C8_differential_values (mkAnalyzer "k" ratList10)).2.2.2 7 (by decide)
    (by decide)

/-- C7: an index is returned by `find_maxima` exactly when it is interior
(neither first nor last), all three of the value and its two neighbours are
present, and both neighbours are strictly below it; symmetrically for
`find_minima` with both neighbours strictly above; and on a constant stored
series both results are empty. -/
theorem C7_extrema_characterization :
    (∀ (s : List (Option ℚ)) (k : String) (d : PySeries) (i : ℕ),
        i ∈ (find_maxima ⟨k, d, PySeries.ofOptVals s⟩).idx
          ↔ 0 < i ∧ i + 1 < s.length ∧ ∃ a b c : ℚ,
              s.getD (i - 1) none = some a ∧ s.getD i none = some b
                ∧ s.getD (i + 1) none = some c ∧ a < b ∧ c < b)
      ∧ (∀ (s : List (Option ℚ)) (k : String) (d : PySeries) (i : ℕ),
          i ∈ (find_minima ⟨k, d, PySeries.ofOptVals s⟩).idx
            ↔ 0 < i ∧ i + 1 < s.length ∧ ∃ a b c : ℚ,
                s.getD (i - 1) none = some a ∧ s.getD i none = some b
                  ∧ s.getD (i + 1) none = some c ∧ b < a ∧ b < c)
      ∧ (∀ (s : List (Option ℚ)) (k : String) (d : PySeries) (c : ℚ),
          (∀ x ∈ s, x = some c) →
            (find_maxima ⟨k, d, PySeries.ofOptVals s⟩).entries = []
              ∧ (find_minima ⟨k, d, PySeries.ofOptVals s⟩).entries
                  = []) := by
  refine ⟨?_, ?_, ?_⟩
  · intro s k d i
    rw [find_maxima_canonical_idx, List.mem_filter, List.mem_range,
      maximaMask_true_iff]
    constructor
    · rintro ⟨hin, h0, a, b, c, ha, hb, hc, hab, hcb⟩
      exact ⟨h0, lt_length_of_getD_some s (i + 1) c hc, a, b, c, ha, hb,
        hc, hab, hcb⟩
    · rintro ⟨h0, h1, a, b, c, ha, hb, hc, hab, hcb⟩
      exact ⟨by omega, h0, a, b, c, ha, hb, hc, hab, hcb⟩
  · intro s k d i
    rw [find_minima_canonical_idx, List.mem_filter, List.mem_range,
      minimaMask_true_iff]
    constructor
    · rintro ⟨hin, h0, a, b, c, ha, hb, hc, hba, hbc⟩
      exact ⟨h0, lt_length_of_getD_some s (i + 1) c hc, a, b, c, ha, hb,
        hc, hba, hbc⟩
    · rintro ⟨h0, h1, a, b, c, ha, hb, hc, hba, hbc⟩
      exact ⟨by omega, h0, a, b, c, ha, hb, hc, hba, hbc⟩
  · intro s k d c hconst
    have hgen : ∀ (j : ℕ) (x : ℚ), s.getD j none = some x → x = c := by
      intro j x hx
      have hj : j < s.length := lt_length_of_getD_some s j x hx
      have := hconst _ (getD_mem_of_lt s j hj)
      rw [hx] at this
      exact Option.some_inj.mp this
    constructor
    · rw [find_maxima_canonical_entries,
        List.filter_eq_nil_iff.mpr ?_, List.map_nil]
      intro i hi hm
      obtain ⟨h0, a, b, cc, ha, hb, hc, hab, hcb⟩ :=
        (maximaMask_true_iff s i).mp hm
      rw [hgen _ _ ha, hgen _ _ hb] at hab
      exact lt_irrefl c hab
    · rw [find_minima_canonical_entries,
        List.filter_eq_nil_iff.mpr ?_, List.map_nil]
      intro i hi hm
      obtain ⟨h0, a, b, cc, ha, hb, hc, hba, hbc⟩ :=
        (minimaMask_true_iff s i).mp hm
      rw [hgen _ _ ha, hgen _ _ hb] at hba
      exact lt_irrefl c hba

/-- C7, witness: the characterization applied to the constant stored series
of three equal values, whose extrema are both empty. -/
theorem C7_extrema_witness :
    (find_maxima ⟨"k", PySeries.mk [],
        PySeries.ofOptVals [some 1, some 1, some 1]⟩).entries = []
      ∧ (find_minima ⟨"k", PySeries.mk [],
          PySeries.ofOptVals [some 1, some 1, some 1]⟩).entries = [] :=
  C7_extrema_characterization.2.2 [some 1, some 1, some 1] "k"
    (PySeries.mk []) 1 (by decide)

/-- C10: the rows returned by `find_maxima` and `find_minima` always carry a
present value (an index whose own value or neighbour is missing is never
selected), and no index is returned by both. -/
theorem C10_extrema_valid_disjoint :
    ∀ (s : List (Option ℚ)) (k : String) (d : PySeries),
      (∀ p ∈ (find_maxima ⟨k, d, PySeries.ofOptVals s⟩).entries,
          p.2.isSome = true)
        ∧ (∀ p ∈ (find_minima ⟨k, d, PySeries.ofOptVals s⟩).entries,
            p.2.isSome = true)
        ∧ (∀ i, i ∈ (find_maxima ⟨k, d, PySeries.ofOptVals s⟩).idx →
            i ∉ (find_minima ⟨k, d, PySeries.ofOptVals s⟩).idx) := by
  intro s k d
  refine ⟨?_, ?_, ?_⟩
  · intro p hp
    rw [find_maxima_canonical_entries] at hp
    obtain ⟨i, hi, rfl⟩ := List.mem_map.mp hp
    rw [List.mem_filter] at hi
    obtain ⟨h0, a, b, c, ha, hb, hc, hab, hcb⟩ :=
      (maximaMask_true_iff s i).mp hi.2
    show (s.getD i none).isSome = true
    rw [hb]
    rfl
  · intro p hp
    rw [find_minima_canonical_entries] at hp
    obtain ⟨i, hi, rfl⟩ := List.mem_map.mp hp
    rw [List.mem_filter] at hi
    obtain ⟨h0, a, b, c, ha, hb, hc, hba, hbc⟩ :=
      (minimaMask_true_iff s i).mp hi.2
    show (s.getD i none).isSome = true
    rw [hb]
    rfl
  · intro i hmax hmin
    rw [find_maxima_canonical_idx, List.mem_filter] at hmax
    rw [find_minima_canonical_idx, List.mem_filter] at hmin
    obtain ⟨h0, a, b, c, ha, hb, hc, hab, hcb⟩ :=
      (maximaMask_true_iff s i).mp hmax.2
    obtain ⟨h0m, am, bm, cm, ham, hbm, hcm, hba, hbc⟩ :=
      (minimaMask_true_iff s i).mp hmin.2
    have e1 : am = a := by
      rw [ha] at ham
      exact (Option.some_inj.mp ham).symm
    have e2 : bm = b := by
      rw [hb] at hbm
      exact (Option.some_inj.mp hbm).symm
    rw [e1, e2] at hba
    exact absurd hab (not_lt.mpr (le_of_lt hba))

/-- C10, witness: on the stored series `[0, 1, 0]` the returned maximum row
carries a present value, and its index 1 is absent from the minima. -/
theorem C10_extrema_witness :
    (((1 : ℕ), some (1 : ℚ)).2.isSome = true)
      ∧ (1 : ℕ) ∉ (find_minima ⟨"k", PySeries.mk [],
          PySeries.ofOptVals [some 0, some 1, some 0]⟩).idx :=
  ⟨(C10_extrema_valid_disjoint [some 0, some 1, some 0] "k"
      (PySeries.mk [])).1 (1, some 1) (by decide),
    (C10_extrema_valid_disjoint [some 0, some 1, some 0] "k"
      (PySeries.mk [])).2.2 1 (by decide)⟩

/-- C3, counterexample: the claim says the number of leading missing
positions equals the count of originally-missing smoothed entries. On the
analyzer over `[1,...,8]` the stored smoothed series has 6 missing entries
and 2 valid ones, yet position 6 of the returned autocorrelation series is
still missing (the code pads one position more than the missing count,
because lag 0 is dropped from the defaulted `valid - 1` lags). -/
theorem C3_leading_missing_count :
    (calculate_auto_correlation (mkAnalyzer "k" ratList8) none).vals.getD 6
        none = none
      ∧ ((mkAnalyzer "k" ratList8).moving_avg_data.vals.filter
          (fun x => x.isNone)).length = 6
      ∧ 2 ≤ ((mkAnalyzer "k" ratList8).moving_avg_data.vals.filterMap
          id).length
      ∧ (calculate_auto_correlation (mkAnalyzer "k" ratList8)
          none).length = 8 := by
  rw [mkAnalyzer8_eq]
  decide

/-- C3, amended: for a stored smoothed series with at least 2 valid values
and the defaulted lag count, the returned series spans the full index, the
leading run of missing positions has length one more than the count of
originally-missing smoothed entries, and the tail holds the sample
autocorrelation coefficients for lags 1 up to one less than the number of
valid values (lag 0 is discarded). -/
theorem C3_tail_alignment :
    ∀ (s : List (Option ℚ)) (k : String) (d : PySeries),
      2 ≤ (s.filterMap id).length →
      (calculate_auto_correlation ⟨k, d, PySeries.ofOptVals s⟩ none).vals
          = List.replicate ((s.filter (fun x => x.isNone)).length + 1)
              none
            ++ (List.range ((s.filterMap id).length - 1)).map
                (fun j => acfCoeff (s.filterMap id) (j + 1))
        ∧ (calculate_auto_correlation ⟨k, d, PySeries.ofOptVals s⟩
            none).idx = List.range s.length := by
  intro s k d h2
  have hv : (s.filterMap id).length ≤ s.length := List.length_filterMap_le _ _
  have hpart := length_filterMap_add_filter_none s
  constructor
  · have hproj : (⟨k, d, PySeries.ofOptVals s⟩ :
        TimeSeriesAnalyzer).moving_avg_data = PySeries.ofOptVals s := rfl
    simp only [calculate_auto_correlation, hproj, PySeries.ofOptVals_vals,
      PySeries.ofOptVals_idx, PySeries.ofOptVals_length, Option.getD_none]
    have hall : s.all (fun x => x.isNone) = false :=
      all_isNone_false_of_valid s (by omega)
    rw [if_neg (by rw [hall]; exact Bool.false_ne_true),
      if_neg (by omega), acfValues_drop_one]
    rw [PySeries.mkzip_vals _ _ ?_]
    · rw [List.length_map, List.length_range]
      rw [show s.length - ((s.filterMap id).length - 1)
          = (s.filter (fun x => x.isNone)).length + 1 from by omega]
    · rw [List.length_append, List.length_replicate, List.length_map,
        List.length_range, List.length_range]
      omega
  · rw [auto_correlation_idx]
    exact PySeries.ofOptVals_idx s

/-- C3, witness: the amended alignment theorem applied to the stored
smoothed series produced by the analyzer over `[1,...,8]`. -/
theorem C3_tail_alignment_witness :
    (calculate_auto_correlation ⟨"k", PySeries.mk [],
        PySeries.ofOptVals smoothed8⟩ none).vals
      = List.replicate ((smoothed8.filter (fun x => x.isNone)).length + 1)
          none
        ++ (List.range ((smoothed8.filterMap id).length - 1)).map
            (fun j => acfCoeff (smoothed8.filterMap id) (j + 1)) :=
  (C3_tail_alignment smoothed8 "k" (PySeries.mk []) (by decide)).1

/-- C4, counterexample: the claim says every derived series shares the index
domain of the original series. On the analyzer over `[1,...,10]` the series
returned by `find_maxima` is a sparse selection whose index is empty, not
the ten-point original index. -/
theorem C4_sparse_extrema :
    (find_maxima (mkAnalyzer "k" ratList10)).idx = []
      ∧ (mkAnalyzer "k" ratList10).data.idx = List.range 10
      ∧ (find_maxima (mkAnalyzer "k" ratList10)).idx
          ≠ (mkAnalyzer "k" ratList10).data.idx := by
  rw [mkAnalyzer10_eq]
  decide

/-- C4, amended: the moving average (when the input is at least as long as
the window) and the autocorrelation keep the index of the series they are
computed from; the extrema are sub-series whose indexes are contained in the
stored index; and the assembled results table of an analyzer with at least
the default window of observations is aligned on exactly the original index.
-/
theorem C4_index_domains :
    (∀ (st : TimeSeriesAnalyzer) (w : ℕ), 1 ≤ w → w ≤ st.data.length →
        (calculate_moving_average st w).idx = st.data.idx)
      ∧ (∀ (st : TimeSeriesAnalyzer) (lags : Option ℕ),
          (calculate_auto_correlation st lags).idx
            = st.moving_avg_data.idx)
      ∧ (∀ (st : TimeSeriesAnalyzer) (i : ℕ),
          i ∈ (find_maxima st).idx → i ∈ st.moving_avg_data.idx)
      ∧ (∀ (st : TimeSeriesAnalyzer) (i : ℕ),
          i ∈ (find_minima st).idx → i ∈ st.moving_avg_data.idx)
      ∧ (∀ (k : String) (raw : List ℚ), 7 ≤ raw.length →
          (get_results (mkAnalyzer k raw)).index
            = (mkAnalyzer k raw).data.idx) := by
  refine ⟨?_, ?_, ?_, ?_, ?_⟩
  · intro st w _ hle
    exact calculate_moving_average_idx st w hle
  · intro st lags
    exact auto_correlation_idx st lags
  · intro st i hi
    exact seriesSelect_idx_subset _ _ i hi
  · intro st i hi
    exact seriesSelect_idx_subset _ _ i hi
  · intro k raw h
    have hdata : (mkAnalyzer k raw).data.idx = List.range raw.length := by
      rw [mkAnalyzer_data, PySeries.ofValues_idx]
    have hstored : (mkAnalyzer k raw).moving_avg_data.idx
        = List.range raw.length := mkAnalyzer_stored_idx k raw h
    have hma : (calculate_moving_average (mkAnalyzer k raw) 7).idx
        = List.range raw.length := by
      rw [calculate_moving_average_idx _ _ ?_, hdata]
      rw [mkAnalyzer_data, PySeries.ofValues_length]
      omega
    have hdi : (calculate_differential (mkAnalyzer k raw)).idx
        = List.range raw.length := by
      rw [calculate_differential, seriesDiff_idx, hstored]
    have hac : (calculate_auto_correlation (mkAnalyzer k raw) none).idx
        = List.range raw.length := by
      rw [auto_correlation_idx, hstored]
    have hmx : ∀ i ∈ (find_maxima (mkAnalyzer k raw)).idx,
        i ∈ List.range raw.length := by
      intro i hi
      rw [← hstored]
      exact seriesSelect_idx_subset _ _ i hi
    have hmn : ∀ i ∈ (find_minima (mkAnalyzer k raw)).idx,
        i ∈ List.range raw.length := by
      intro i hi
      rw [← hstored]
      exact seriesSelect_idx_subset _ _ i hi
    simp only [get_results]
    rw [hma, hdi, hac,
      idxUnion_eq_left _ _ (fun x hx => hx),
      idxUnion_eq_left _ _ (fun x hx => hx),
      idxUnion_eq_left _ _ hmx,
      idxUnion_eq_left _ _ hmn,
      hdata]

/-- C4, witness: the amended theorem applied to the analyzer over
`[1,...,8]`: its results table is aligned on the original eight-point
index. -/
theorem C4_index_domains_witness :
    (get_results (mkAnalyzer "k" ratList8)).index
      = (mkAnalyzer "k" ratList8).data.idx :=
  C4_index_domains.2.2.2.2 "k" ratList8 (by decide)

/-- C9: `calculate_moving_average`, run as a state transformer, returns the
analyzer state unchanged (keyword, raw data and stored smoothed series
included), and the stored smoothed series is exactly the one written by the
initial call made by the constructor with the default window. -/
theorem C9_frame_no_mutation :
    (∀ (st : TimeSeriesAnalyzer) (w : ℕ),
        (run_calculate_moving_average st w).1 = st
          ∧ (run_calculate_moving_average st w).1.keyword = st.keyword
          ∧ (run_calculate_moving_average st w).1.data = st.data
          ∧ (run_calculate_moving_average st w).1.moving_avg_data
              = st.moving_avg_data)
      ∧ (∀ (k : String) (raw : List ℚ),
          (mkAnalyzer k raw).keyword = k
            ∧ (mkAnalyzer k raw).data = PySeries.ofValues raw
            ∧ (mkAnalyzer k raw).moving_avg_data
                = calculate_moving_average
                    { keyword := k, data := PySeries.ofValues raw,
                      moving_avg_data := PySeries.mk [] } 7) :=
  ⟨fun _ _ => ⟨rfl, rfl, rfl, rfl⟩, fun _ _ => ⟨rfl, rfl, rfl⟩⟩

end TrendsAnalyzer
